import Mathlib

/-!
Verification of the spaced-repetition scheduler core: the SM-2 scheduler
(sm2-scheduler.ts), the cosine-similarity clustering service, and the
review session manager (ReviewSessionManager).

Shallow embedding conventions:
  * JS Date instants are modelled as integers (milliseconds since epoch,
    UTC); a calendar day is obtained with startOfDay (floor to a multiple
    of msPerDay), matching setHours(0,0,0,0).
  * JS numbers carrying scheduler data (ease factors, intervals) are
    modelled as rationals; similarity values, whose computation uses
    Math.sqrt, are modelled as real numbers.
  * the ambient clock (new Date(), Date.now(), the YYYY-MM-DD string of
    today) is passed to each operation as an explicit parameter.
  * Array.prototype.sort with a comparator c is modelled as the stable
    List.mergeSort with the relation fun a b => c a b ≤ 0, per the
    ECMAScript stable-sort requirement.
  * JS Array.push is ++ [x]; Array.filter / includes are List.filter / ∈.
-/

/-! ## Data model (core/domain: ReviewCard, SM2State, RetentionLevel) -/

inductive RetentionLevel : Type
  | novice
  | learning
  | intermediate
  | advanced
  | mastered
deriving DecidableEq, Repr

/-- RETENTION_LEVEL_ORDER from core/domain (novice 0 … mastered 4). -/
def RETENTION_LEVEL_ORDER : RetentionLevel → Int
  | .novice => 0
  | .learning => 1
  | .intermediate => 2
  | .advanced => 3
  | .mastered => 4

structure SM2State : Type where
  repetition : Int
  interval : ℚ
  easeFactor : ℚ
  nextReview : Int
deriving DecidableEq, Repr

/-- ReviewCard; presentation-only fields (notePath, noteTitle, tags,
createdAt, lastModified) and reviewHistory (read only by
estimateRetentionLevel, which no claim touches) are omitted. -/
structure ReviewCard : Type where
  noteId : String
  sm2State : SM2State
  retentionLevel : RetentionLevel
deriving DecidableEq, Repr

/-! ## SM2Scheduler (adapters/scheduling/sm2-scheduler.ts) -/

def msPerDay : Int := 86400000

/-- addDays: result.setDate(result.getDate() + days), integer day counts. -/
def addDays (t : Int) (days : Int) : Int := t + days * msPerDay

/-- startOfDay: result.setHours(0, 0, 0, 0). -/
def startOfDay (t : Int) : Int := (t.fdiv msPerDay) * msPerDay

/-- JS Math.round: round half toward positive infinity. -/
def roundQ (q : ℚ) : Int := ⌊q + 1/2⌋

/-- SM2Scheduler.calculateNext, with the current instant passed in for
new Date(). -/
def calculateNext (now : Int) (card : ReviewCard) (quality : Nat) : SM2State :=
  let s := card.sm2State
  if quality < 3 then
    { repetition := 0
      interval := 1
      easeFactor := max 1.3 (s.easeFactor - 0.2)
      nextReview := addDays now 1 }
  else
    let newInterval : Int :=
      if s.repetition = 0 then 1
      else if s.repetition = 1 then 6
      else roundQ (s.interval * s.easeFactor)
    let newEF : ℚ :=
      s.easeFactor + (0.1 - (5 - (quality : ℚ)) * (0.08 + (5 - (quality : ℚ)) * 0.02))
    { repetition := s.repetition + 1
      interval := (newInterval : ℚ)
      easeFactor := max 1.3 newEF
      nextReview := addDays now newInterval }

/-- SM2Scheduler.getDueCards: next-review calendar day ≤ reference day. -/
def getDueCards (now : Int) (cards : List ReviewCard) : List ReviewCard :=
  cards.filter fun card => startOfDay card.sm2State.nextReview ≤ startOfDay now

/-- SM2Scheduler.getOverdueCards: next-review calendar day < yesterday. -/
def getOverdueCards (now : Int) (cards : List ReviewCard) : List ReviewCard :=
  cards.filter fun card => startOfDay card.sm2State.nextReview < addDays (startOfDay now) (-1)

/-! A JS comparator of the shape "if key(a) differs from key(b), order by
that key, else fall through" is modelled by lexStep: the relation
fun a b => comparator a b ≤ 0 for a lexicographic comparator. -/

/-- One lexicographic comparator stage: order by the key when the keys
differ, otherwise defer to the rest of the comparator. -/
def lexStep {α : Type} {β : Type} [LinearOrder β] (k : α → β) (rest : α → α → Bool)
    (a b : α) : Bool :=
  if k a = k b then rest a b else decide (k a < k b)

/-- Final comparator stage returning key(a) − key(b): the induced
relation is key(a) ≤ key(b). -/
def leBy {α : Type} {β : Type} [LinearOrder β] (k : α → β) (a b : α) : Bool :=
  decide (k a ≤ k b)

theorem lexStep_trans {α β : Type} [LinearOrder β] (k : α → β) (rest : α → α → Bool)
    (h : ∀ a b c, rest a b = true → rest b c = true → rest a c = true) :
    ∀ a b c, lexStep k rest a b = true → lexStep k rest b c = true →
      lexStep k rest a c = true := by
  intro a b c hab hbc
  unfold lexStep at hab hbc ⊢
  by_cases e1 : k a = k b <;> by_cases e2 : k b = k c
  · rw [if_pos e1] at hab
    rw [if_pos e2] at hbc
    rw [if_pos (e1.trans e2)]
    exact h a b c hab hbc
  · rw [if_pos e1] at hab
    rw [if_neg e2] at hbc
    have hne : k a ≠ k c := e1 ▸ e2
    rw [if_neg hne]
    rw [decide_eq_true_eq] at hbc ⊢
    exact e1 ▸ hbc
  · rw [if_neg e1] at hab
    rw [if_pos e2] at hbc
    have hne : k a ≠ k c := fun hac => e1 (hac.trans e2.symm)
    rw [if_neg hne]
    rw [decide_eq_true_eq] at hab ⊢
    exact e2 ▸ hab
  · rw [if_neg e1] at hab
    rw [if_neg e2] at hbc
    rw [decide_eq_true_eq] at hab hbc
    have hlt : k a < k c := lt_trans hab hbc
    rw [if_neg (ne_of_lt hlt), decide_eq_true_eq]
    exact hlt

theorem lexStep_total {α β : Type} [LinearOrder β] (k : α → β) (rest : α → α → Bool)
    (h : ∀ a b, rest a b || rest b a) :
    ∀ a b, lexStep k rest a b || lexStep k rest b a := by
  intro a b
  by_cases e : k a = k b
  · simp only [lexStep, e, if_pos rfl, if_pos e.symm]
    exact h a b
  · have e2 : k b ≠ k a := fun h2 => e h2.symm
    simp only [lexStep, if_neg e, if_neg e2, Bool.or_eq_true, decide_eq_true_eq]
    exact lt_or_gt_of_ne e

theorem leBy_trans {α β : Type} [LinearOrder β] (k : α → β) :
    ∀ a b c, leBy k a b = true → leBy k b c = true → leBy k a c = true := by
  intro a b c hab hbc
  simp only [leBy, decide_eq_true_eq] at *
  exact le_trans hab hbc

theorem leBy_total {α β : Type} [LinearOrder β] (k : α → β) :
    ∀ a b, leBy k a b || leBy k b a := by
  intro a b
  simp only [leBy, Bool.or_eq_true, decide_eq_true_eq]
  exact le_total _ _

/-- The overdue flag of optimizeReviewOrder: nextReview instant strictly
before now.  Negated so that in the Bool order (false < true) flagged
cards sort first. -/
def overdueKey (now : Int) (c : ReviewCard) : Bool :=
  !decide (c.sm2State.nextReview < now)

/-- The comparator of SM2Scheduler.optimizeReviewOrder as a boolean
relation (comparator value ≤ 0): overdue flag (nextReview instant before
now) first, then RETENTION_LEVEL_ORDER ascending, then easeFactor
ascending. -/
def optLe (now : Int) : ReviewCard → ReviewCard → Bool :=
  lexStep (overdueKey now)
    (lexStep (fun c => RETENTION_LEVEL_ORDER c.retentionLevel)
      (leBy fun c => c.sm2State.easeFactor))

/-- SM2Scheduler.optimizeReviewOrder ([...cards].sort(...)). -/
def optimizeReviewOrder (now : Int) (cards : List ReviewCard) : List ReviewCard :=
  cards.mergeSort (optLe now)

theorem optLe_trans (now : Int) : ∀ a b c, optLe now a b = true → optLe now b c = true →
    optLe now a c = true :=
  lexStep_trans _ _ (lexStep_trans _ _ (leBy_trans _))

theorem optLe_total (now : Int) : ∀ a b, optLe now a b || optLe now b a :=
  lexStep_total _ _ (lexStep_total _ _ (leBy_total _))

/-! ## Claim C2: calculateNext against the spec formula -/

/-- Modelled from the spec (section 4.1): the SM-2 update as the spec
words it, for comparison with the source calculateNext.
quality < 3: repetitionCount 0, intervalDays 1, easeFactor
max(1.3, easeFactor − 0.2), nextReviewDate today + 1.
quality ≥ 3: intervalDays 1 if repetitionCount was 0, 6 if it was 1,
else round(intervalDays × easeFactor); easeFactor
max(1.3, easeFactor + (0.1 − (5 − q)·(0.08 + (5 − q)·0.02)));
repetitionCount + 1; nextReviewDate today + intervalDays. -/
def calculateNextSpec (today : Int) (st : SM2State) (quality : Nat) : SM2State :=
  if quality < 3 then
    { repetition := 0
      interval := 1
      easeFactor := max 1.3 (st.easeFactor - 0.2)
      nextReview := addDays today 1 }
  else
    let intervalDays : Int :=
      if st.repetition = 0 then 1
      else if st.repetition = 1 then 6
      else roundQ (st.interval * st.easeFactor)
    { repetition := st.repetition + 1
      interval := (intervalDays : ℚ)
      easeFactor :=
        max 1.3 (st.easeFactor + (0.1 - (5 - (quality : ℚ)) * (0.08 + (5 - (quality : ℚ)) * 0.02)))
      nextReview := addDays today intervalDays }

/-- C2: for every memory state and quality 0..5, calculateNext computes
exactly the update the spec describes (failure branch for quality < 3,
success branch otherwise), and the returned easeFactor is always
at least 1.3. -/
theorem C2_calculateNext (now : Int) (card : ReviewCard) (q : Nat) (_hq : q ≤ 5) :
    calculateNext now card q = calculateNextSpec now card.sm2State q ∧
    (1.3 : ℚ) ≤ (calculateNext now card q).easeFactor := by
  refine ⟨rfl, ?_⟩
  unfold calculateNext
  split
  · exact le_max_left _ _
  · exact le_max_left _ _

/-- Witness for C2 at the spec example: repetition 2, interval 6,
easeFactor 2.5, quality 4. -/
theorem C2_witness :
    4 ≤ 5 ∧
    (calculateNext 0 ⟨"n", ⟨2, 6, 2.5, 0⟩, RetentionLevel.novice⟩ 4 =
      calculateNextSpec 0 ⟨2, 6, 2.5, 0⟩ 4 ∧
     (1.3 : ℚ) ≤ (calculateNext 0 ⟨"n", ⟨2, 6, 2.5, 0⟩, RetentionLevel.novice⟩ 4).easeFactor) :=
  ⟨by decide, C2_calculateNext 0 ⟨"n", ⟨2, 6, 2.5, 0⟩, RetentionLevel.novice⟩ 4 (by decide)⟩

/-! ## Claim C5: overdue-first ordering of optimizeReviewOrder -/

theorem optimizeReviewOrder_pairwise (now : Int) (cards : List ReviewCard) :
    (optimizeReviewOrder now cards).Pairwise (fun a b => optLe now a b = true) :=
  List.sorted_mergeSort (optLe_trans now) (optLe_total now) cards

/-- C5 (amended): in the output of optimizeReviewOrder, every item whose
nextReview instant is strictly before the current instant precedes every
item whose nextReview is not; the flag the sort uses is the raw instant
comparison nextReview < now, not the calendar-day overdue test of
getOverdueCards. -/
theorem C5_overdue_first (now : Int) (cards : List ReviewCard)
    (l1 l2 l3 : List ReviewCard) (x y : ReviewCard)
    (hsplit : optimizeReviewOrder now cards = l1 ++ x :: (l2 ++ y :: l3))
    (hy : y.sm2State.nextReview < now) : x.sm2State.nextReview < now := by
  have hp := optimizeReviewOrder_pairwise now cards
  rw [hsplit] at hp
  have h1 : (x :: (l2 ++ y :: l3)).Pairwise (fun a b => optLe now a b = true) :=
    (List.pairwise_append.mp hp).2.1
  have hxy : optLe now x y = true :=
    (List.pairwise_cons.mp h1).1 y (by simp)
  by_cases hx : x.sm2State.nextReview < now
  · exact hx
  · exfalso
    simp [optLe, lexStep, overdueKey, hx, hy] at hxy
    exact (by decide : ¬(true < false)) hxy

/-- Witness for C5_overdue_first on a two-element list. -/
theorem C5_witness :
    optimizeReviewOrder 1 [⟨"a", ⟨0, 0, 1, 0⟩, RetentionLevel.novice⟩,
        ⟨"a", ⟨0, 0, 1, 0⟩, RetentionLevel.novice⟩] =
      [] ++ ⟨"a", ⟨0, 0, 1, 0⟩, RetentionLevel.novice⟩ ::
        ([] ++ ⟨"a", ⟨0, 0, 1, 0⟩, RetentionLevel.novice⟩ :: []) ∧
    (0 : Int) < 1 ∧ (0 : Int) < 1 :=
  have hs : optimizeReviewOrder 1 [⟨"a", ⟨0, 0, 1, 0⟩, RetentionLevel.novice⟩,
      ⟨"a", ⟨0, 0, 1, 0⟩, RetentionLevel.novice⟩] =
      [] ++ ⟨"a", ⟨0, 0, 1, 0⟩, RetentionLevel.novice⟩ ::
        ([] ++ ⟨"a", ⟨0, 0, 1, 0⟩, RetentionLevel.novice⟩ :: []) := by
    simp [optimizeReviewOrder, List.mergeSort, optLe, lexStep, overdueKey, leBy]
  ⟨hs, by decide, C5_overdue_first 1 _ [] [] [] _ _ hs (by decide)⟩

/-- C5 counterexample to the claim as stated: with now an instant in the
middle of day 2, card o (nextReview day 0) is overdue in the calendar
sense of getOverdueCards while card n (nextReview earlier on day 2) is
not, yet optimizeReviewOrder places n before o, because both carry the
instant-based flag and n has the lower retention level. -/
theorem C5_counterexample :
    getOverdueCards (2 * 86400000 + 1000)
        [⟨"o", ⟨0, 0, 2, 0⟩, RetentionLevel.mastered⟩,
         ⟨"n", ⟨0, 0, 1, 2 * 86400000 + 500⟩, RetentionLevel.novice⟩] =
      [⟨"o", ⟨0, 0, 2, 0⟩, RetentionLevel.mastered⟩] ∧
    optimizeReviewOrder (2 * 86400000 + 1000)
        [⟨"o", ⟨0, 0, 2, 0⟩, RetentionLevel.mastered⟩,
         ⟨"n", ⟨0, 0, 1, 2 * 86400000 + 500⟩, RetentionLevel.novice⟩] =
      [⟨"n", ⟨0, 0, 1, 2 * 86400000 + 500⟩, RetentionLevel.novice⟩,
       ⟨"o", ⟨0, 0, 2, 0⟩, RetentionLevel.mastered⟩] := by
  constructor
  · decide
  · simp [optimizeReviewOrder, List.mergeSort, optLe, lexStep, overdueKey, leBy,
      RETENTION_LEVEL_ORDER]

/-! ## Session entities (core/domain/entities/focus-session.ts) -/

inductive FocusSessionStatus : Type
  | active
  | completed
  | paused
deriving DecidableEq, Repr

structure FocusSession : Type where
  id : String
  clusterId : String
  clusterLabel : String
  noteIds : List String
  remainingNoteIds : List String
  reviewedTodayIds : List String
  startedAt : Int
  lastActiveAt : Int
  status : FocusSessionStatus
deriving DecidableEq, Repr

/-- NoteCluster; the optional centroid vector, read by no manager
operation, is omitted. -/
structure NoteCluster : Type where
  id : String
  label : String
  noteIds : List String
  dueCount : Int
  totalCount : Int
deriving DecidableEq, Repr

/-- PersistedSessionData; the Record<string, string> clusterLastReviewed
is modelled as an association list (JS object lookup / keyed update). -/
structure PersistedSessionData : Type where
  currentSession : Option FocusSession
  lastActiveDate : String
  reviewedTodayIds : List String
  newCardsIntroducedIds : List String
  clusterLastReviewed : List (String × String)
deriving DecidableEq, Repr

/-- JS object property read: obj[k], none when absent. -/
def recLookup (m : List (String × String)) (k : String) : Option String :=
  (m.find? fun p => p.1 == k).map Prod.snd

/-- JS object property write: obj[k] = v (update in place, else append). -/
def recSet (m : List (String × String)) (k v : String) : List (String × String) :=
  if m.any (fun p => p.1 == k) then m.map fun p => if p.1 == k then (k, v) else p
  else m ++ [(k, v)]

/-! ## ReviewSessionManager (ReviewSessionManager in the llm adapter file) -/

structure ReviewSessionConfig : Type where
  dailyLimit : Int
  newCardsPerDay : Int
  similarityThreshold : ℚ
  clusterMinSize : Int
deriving DecidableEq, Repr

def DEFAULT_SESSION_CONFIG : ReviewSessionConfig :=
  { dailyLimit := 20, newCardsPerDay := 10, similarityThreshold := 7/10, clusterMinSize := 3 }

/-- The ReviewSessionManager constructor: keep the persisted data when
its lastActiveDate is todayStr, otherwise reset the daily counters, set
lastActiveDate to today and carry over currentSession and
clusterLastReviewed (persistedData?.currentSession || null and
persistedData?.clusterLastReviewed || empty). -/
def constructSessionManager (todayStr : String) (persisted : Option PersistedSessionData) :
    PersistedSessionData :=
  match persisted with
  | some p =>
    if p.lastActiveDate = todayStr then p
    else
      { currentSession := p.currentSession
        lastActiveDate := todayStr
        reviewedTodayIds := []
        newCardsIntroducedIds := []
        clusterLastReviewed := p.clusterLastReviewed }
  | none =>
      { currentSession := none
        lastActiveDate := todayStr
        reviewedTodayIds := []
        newCardsIntroducedIds := []
        clusterLastReviewed := [] }

/-- The status write session.status = 'completed' performed on the
session object inside completeCurrentSession. -/
def completeSession (sess : FocusSession) : FocusSession :=
  { sess with status := .completed }

/-- ReviewSessionManager.completeCurrentSession: mark the session object
completed, record clusterLastReviewed[clusterId] = today, clear
currentSession. -/
def completeCurrentSession (todayStr : String) (s : PersistedSessionData) :
    PersistedSessionData :=
  match s.currentSession with
  | none => s
  | some sess =>
    let c := completeSession sess
    { s with
      clusterLastReviewed := recSet s.clusterLastReviewed c.clusterId todayStr
      currentSession := none }

/-- The in-session part of markReviewed: drop the note from
remainingNoteIds, add it (idempotently) to the session's
reviewedTodayIds, refresh lastActiveAt; the status field is untouched. -/
def markSessionStep (noteId : String) (now : Int) (sess : FocusSession) : FocusSession :=
  { sess with
    remainingNoteIds := sess.remainingNoteIds.filter (· ≠ noteId)
    reviewedTodayIds :=
      if noteId ∈ sess.reviewedTodayIds then sess.reviewedTodayIds
      else sess.reviewedTodayIds ++ [noteId]
    lastActiveAt := now }

/-- ReviewSessionManager.markReviewed. -/
def markReviewed (todayStr : String) (now : Int) (noteId : String) (isNewCard : Bool)
    (s : PersistedSessionData) : PersistedSessionData :=
  let s1 :=
    if noteId ∈ s.reviewedTodayIds then s
    else { s with reviewedTodayIds := s.reviewedTodayIds ++ [noteId] }
  let s2 :=
    if isNewCard ∧ noteId ∉ s1.newCardsIntroducedIds then
      { s1 with newCardsIntroducedIds := s1.newCardsIntroducedIds ++ [noteId] }
    else s1
  match s2.currentSession with
  | none => s2
  | some sess =>
    let sess2 := markSessionStep noteId now sess
    let s3 := { s2 with currentSession := some sess2 }
    if sess2.remainingNoteIds = [] then completeCurrentSession todayStr s3 else s3

/-- The FocusSession literal built by startSessionForCluster
(id session_Date.now(), remaining = dueNoteIds ∩ cluster members). -/
def mkFocusSession (now : Int) (cluster : NoteCluster) (dueNoteIds : List String) :
    FocusSession :=
  { id := "session_" ++ toString now
    clusterId := cluster.id
    clusterLabel := cluster.label
    noteIds := cluster.noteIds
    remainingNoteIds := dueNoteIds.filter (· ∈ cluster.noteIds)
    reviewedTodayIds := []
    startedAt := now
    lastActiveAt := now
    status := .active }

/-- ReviewSessionManager.startSessionForCluster (state effect; the
method also returns the new session, i.e. mkFocusSession). -/
def startSessionForCluster (now : Int) (cluster : NoteCluster) (dueNoteIds : List String)
    (s : PersistedSessionData) : PersistedSessionData :=
  { s with currentSession := some (mkFocusSession now cluster dueNoteIds) }

/-- ReviewSessionManager.pauseCurrentSession. -/
def pauseCurrentSession (s : PersistedSessionData) : PersistedSessionData :=
  match s.currentSession with
  | none => s
  | some sess => { s with currentSession := some { sess with status := .paused } }

/-- ReviewSessionManager.getSessionNotes. -/
def getSessionNotes (s : PersistedSessionData) (dueCards : List ReviewCard) :
    List ReviewCard :=
  match s.currentSession with
  | none => []
  | some sess => dueCards.filter fun card => card.noteId ∈ sess.remainingNoteIds

/-- JS new Set(array) iteration order: first occurrences, input order. -/
def dedupFirstAux (seen : List String) : List String → List String
  | [] => []
  | x :: xs => if x ∈ seen then dedupFirstAux seen xs else x :: dedupFirstAux (seen ++ [x]) xs

def dedupFirst (l : List String) : List String := dedupFirstAux [] l

/-- dueCount of a cluster inside startNewSession:
cluster.noteIds.filter(id => dueNoteIds.has(id)).length. -/
def clusterDueCount (dueNoteIds : List String) (c : NoteCluster) : Int :=
  ((c.noteIds.filter (· ∈ dueNoteIds)).length : Int)

/-- clusterLastReviewed[cluster.id] || '1970-01-01'. -/
def lastReviewedOf (s : PersistedSessionData) (c : NoteCluster) : String :=
  (recLookup s.clusterLastReviewed c.id).getD "1970-01-01"

/-- The eligible-cluster comparator of startNewSession: oldest
lastReviewed first (localeCompare), then higher dueCount first. -/
def eligLe : (NoteCluster × Int × String) → (NoteCluster × Int × String) → Bool :=
  lexStep (fun e => e.2.2) (leBy fun e => -e.2.1)

/-- ReviewSessionManager.startNewSession: pick, among clusters holding a
due note, the one least recently reviewed, and install a focus session
for it; returns the new session (if any) and the updated state. -/
def startNewSession (now : Int) (s : PersistedSessionData) (dueCards : List ReviewCard)
    (clusters : List NoteCluster) : Option FocusSession × PersistedSessionData :=
  if clusters.length = 0 then (none, s)
  else
    let dueNoteIds := dedupFirst (dueCards.map (·.noteId))
    let eligibleClusters :=
      ((clusters.map fun c => (c, clusterDueCount dueNoteIds c, lastReviewedOf s c)).filter
        fun e => 0 < e.2.1).mergeSort eligLe
    match eligibleClusters with
    | [] => (none, s)
    | e :: _ =>
      (some (mkFocusSession now e.1 dueNoteIds), startSessionForCluster now e.1 dueNoteIds s)

/-- The comparator of the private sortByPriority: earlier nextReview
instant first, then lower easeFactor, then lower repetition. -/
def prioLe : ReviewCard → ReviewCard → Bool :=
  lexStep (fun c => c.sm2State.nextReview)
    (lexStep (fun c => c.sm2State.easeFactor) (leBy fun c => c.sm2State.repetition))

/-- ReviewSessionManager.sortByPriority ([...cards].sort(...)). -/
def sortByPriority (cards : List ReviewCard) : List ReviewCard :=
  cards.mergeSort prioLe

/-- Steps 5 and 6 of selectTodayReviewNotes: try to start a new cluster
session; fall back to sortByPriority over the due cards. -/
def afterSessionSelect (now : Int) (s : PersistedSessionData) (dueCards : List ReviewCard)
    (clusters : List NoteCluster) (remainingSlots : Int) :
    List ReviewCard × PersistedSessionData :=
  match startNewSession now s dueCards clusters with
  | (some _, s2) => ((getSessionNotes s2 dueCards).take remainingSlots.toNat, s2)
  | (none, s2) => ((sortByPriority dueCards).take remainingSlots.toNat, s2)

/-- Steps 1 and 2 of selectTodayReviewNotes: drop the cards already in
reviewedTodayIds, keep the cards with nextReview ≤ todayEnd. -/
def dueCardsFor (todayEnd : Int) (s : PersistedSessionData) (allCards : List ReviewCard) :
    List ReviewCard :=
  allCards.filter fun card =>
    card.noteId ∉ s.reviewedTodayIds ∧ card.sm2State.nextReview ≤ todayEnd

/-- ReviewSessionManager.selectTodayReviewNotes; todayEnd is the instant
23:59:59 of today, todayStr the YYYY-MM-DD day string, now the current
instant. -/
def selectTodayReviewNotes (cfg : ReviewSessionConfig) (todayEnd : Int) (todayStr : String)
    (now : Int) (s : PersistedSessionData) (allCards : List ReviewCard)
    (clusters : List NoteCluster) : List ReviewCard × PersistedSessionData :=
  let dueCards := dueCardsFor todayEnd s allCards
  let remainingSlots : Int := cfg.dailyLimit - s.reviewedTodayIds.length
  if remainingSlots ≤ 0 then ([], s)
  else if s.currentSession.map FocusSession.status = some .active then
    let sessionNotes := getSessionNotes s dueCards
    if sessionNotes ≠ [] then (sessionNotes.take remainingSlots.toNat, s)
    else afterSessionSelect now (completeCurrentSession todayStr s) dueCards clusters
      remainingSlots
  else afterSessionSelect now s dueCards clusters remainingSlots

/-- ReviewSessionManager.selectNewCardsToIntroduce (a pure query: the
state comes back unchanged). -/
def selectNewCardsToIntroduce (cfg : ReviewSessionConfig) (s : PersistedSessionData)
    (newCards : List ReviewCard) (clusters : List NoteCluster) :
    List ReviewCard × PersistedSessionData :=
  let remainingNewSlots : Int := cfg.newCardsPerDay - s.newCardsIntroducedIds.length
  if remainingNewSlots ≤ 0 then ([], s)
  else
    let candidates := newCards.filter fun c => c.noteId ∉ s.newCardsIntroducedIds
    match s.currentSession with
    | some sess =>
      match clusters.find? (fun c => c.id == sess.clusterId) with
      | some cluster =>
        let sameClusterNew := candidates.filter fun c => c.noteId ∈ cluster.noteIds
        let otherNew := candidates.filter fun c => c.noteId ∉ cluster.noteIds
        ((sameClusterNew ++ otherNew).take remainingNewSlots.toNat, s)
      | none => (candidates.take remainingNewSlots.toNat, s)
    | none => (candidates.take remainingNewSlots.toNat, s)

/-! ## Frame lemmas for the session-manager state -/

theorem completeCurrentSession_counters (t : String) (s : PersistedSessionData) :
    (completeCurrentSession t s).reviewedTodayIds = s.reviewedTodayIds ∧
    (completeCurrentSession t s).newCardsIntroducedIds = s.newCardsIntroducedIds := by
  cases h : s.currentSession <;> simp [completeCurrentSession, completeSession, h]

theorem markReviewed_counters (t : String) (n : Int) (x : String) (b : Bool)
    (s : PersistedSessionData) :
    (markReviewed t n x b s).reviewedTodayIds =
      (if x ∈ s.reviewedTodayIds then s.reviewedTodayIds else s.reviewedTodayIds ++ [x]) ∧
    (markReviewed t n x b s).newCardsIntroducedIds =
      (if b = true ∧ x ∉ s.newCardsIntroducedIds then s.newCardsIntroducedIds ++ [x]
       else s.newCardsIntroducedIds) := by
  cases hcs : s.currentSession with
  | none =>
    by_cases h1 : x ∈ s.reviewedTodayIds <;>
      by_cases h2 : b = true ∧ x ∉ s.newCardsIntroducedIds <;>
        simp [markReviewed, h1, h2, hcs]
  | some sess =>
    by_cases h1 : x ∈ s.reviewedTodayIds <;>
      by_cases h2 : b = true ∧ x ∉ s.newCardsIntroducedIds <;>
        simp [markReviewed, h1, h2, hcs, completeCurrentSession, completeSession] <;>
        split <;> simp

theorem pauseCurrentSession_state (s : PersistedSessionData) :
    (pauseCurrentSession s).reviewedTodayIds = s.reviewedTodayIds ∧
    (pauseCurrentSession s).newCardsIntroducedIds = s.newCardsIntroducedIds ∧
    (pauseCurrentSession s).clusterLastReviewed = s.clusterLastReviewed := by
  cases h : s.currentSession <;> simp [pauseCurrentSession, h]

theorem selectNewCards_state (cfg : ReviewSessionConfig) (s : PersistedSessionData)
    (newCards : List ReviewCard) (clusters : List NoteCluster) :
    (selectNewCardsToIntroduce cfg s newCards clusters).2 = s := by
  by_cases hr : cfg.newCardsPerDay - (s.newCardsIntroducedIds.length : Int) ≤ 0
  · simp [selectNewCardsToIntroduce, hr]
  · cases hcs : s.currentSession with
    | none => simp [selectNewCardsToIntroduce, hr, hcs]
    | some sess =>
      cases hf : clusters.find? (fun c => c.id == sess.clusterId) <;>
        simp [selectNewCardsToIntroduce, hr, hcs, hf]

theorem startNewSession_state (now : Int) (s : PersistedSessionData)
    (dueCards : List ReviewCard) (clusters : List NoteCluster) :
    ((startNewSession now s dueCards clusters).2.reviewedTodayIds = s.reviewedTodayIds ∧
     (startNewSession now s dueCards clusters).2.newCardsIntroducedIds =
       s.newCardsIntroducedIds ∧
     (startNewSession now s dueCards clusters).2.clusterLastReviewed =
       s.clusterLastReviewed) ∧
    ((startNewSession now s dueCards clusters).2.currentSession = s.currentSession ∨
     ∃ cl ids, (startNewSession now s dueCards clusters).2.currentSession =
       some (mkFocusSession now cl ids)) := by
  by_cases hlen : clusters.length = 0
  · simp [startNewSession, hlen]
  · cases hm : (List.filter (fun e => decide (0 < e.2.1))
        (clusters.map fun c =>
          (c, clusterDueCount (dedupFirst (dueCards.map fun x => x.noteId)) c,
            lastReviewedOf s c))).mergeSort eligLe with
    | nil => simp [startNewSession, hlen, hm]
    | cons e rest =>
      refine ⟨?_, Or.inr ⟨e.1, dedupFirst (dueCards.map fun x => x.noteId), ?_⟩⟩ <;>
        simp [startNewSession, hlen, hm, startSessionForCluster]

theorem afterSessionSelect_state (now : Int) (s : PersistedSessionData)
    (dueCards : List ReviewCard) (clusters : List NoteCluster) (slots : Int) :
    ((afterSessionSelect now s dueCards clusters slots).2.reviewedTodayIds =
       s.reviewedTodayIds ∧
     (afterSessionSelect now s dueCards clusters slots).2.newCardsIntroducedIds =
       s.newCardsIntroducedIds ∧
     (afterSessionSelect now s dueCards clusters slots).2.clusterLastReviewed =
       s.clusterLastReviewed) ∧
    ((afterSessionSelect now s dueCards clusters slots).2.currentSession =
       s.currentSession ∨
     ∃ cl ids, (afterSessionSelect now s dueCards clusters slots).2.currentSession =
       some (mkFocusSession now cl ids)) := by
  have h := startNewSession_state now s dueCards clusters
  unfold afterSessionSelect
  cases hsn : startNewSession now s dueCards clusters with
  | mk osess s2 =>
    rw [hsn] at h
    cases osess <;> exact h

theorem selectToday_counters (cfg : ReviewSessionConfig) (todayEnd : Int) (todayStr : String)
    (now : Int) (s : PersistedSessionData) (allCards : List ReviewCard)
    (clusters : List NoteCluster) :
    (selectTodayReviewNotes cfg todayEnd todayStr now s allCards clusters).2.reviewedTodayIds =
      s.reviewedTodayIds ∧
    (selectTodayReviewNotes cfg todayEnd todayStr now s allCards
        clusters).2.newCardsIntroducedIds = s.newCardsIntroducedIds := by
  unfold selectTodayReviewNotes
  by_cases hr : cfg.dailyLimit - (s.reviewedTodayIds.length : Int) ≤ 0
  · simp [hr]
  · simp only [hr, if_false]
    by_cases ha : s.currentSession.map FocusSession.status = some FocusSessionStatus.active
    · simp only [ha, if_pos, if_true]
      by_cases hn :
          getSessionNotes s (dueCardsFor todayEnd s allCards) ≠ []
      · simp [hn]
      · simp only [hn, if_false, ite_not, if_neg, if_pos]
        have h1 := (afterSessionSelect_state now (completeCurrentSession todayStr s)
          (dueCardsFor todayEnd s allCards) clusters
          (cfg.dailyLimit - (s.reviewedTodayIds.length : Int))).1
        have h2 := completeCurrentSession_counters todayStr s
        simp only [not_not] at hn
        simp [hn, h1.1, h1.2.1, h2.1, h2.2]
    · simp only [ha, if_neg, if_false]
      have h1 := (afterSessionSelect_state now s
        (dueCardsFor todayEnd s allCards) clusters
        (cfg.dailyLimit - (s.reviewedTodayIds.length : Int))).1
      exact ⟨h1.1, h1.2.1⟩


/-! ## Claim C8: constructor day rollover -/

/-- C8: constructing from persisted data whose lastActiveDate is not
today empties the two daily counters, sets lastActiveDate to today and
carries currentSession and clusterLastReviewed over unchanged; when
lastActiveDate is today the persisted state is used entirely
unchanged. -/
theorem C8_construct_rollover (todayStr : String) (p : PersistedSessionData) :
    (p.lastActiveDate ≠ todayStr →
      constructSessionManager todayStr (some p) =
        { currentSession := p.currentSession
          lastActiveDate := todayStr
          reviewedTodayIds := []
          newCardsIntroducedIds := []
          clusterLastReviewed := p.clusterLastReviewed }) ∧
    (p.lastActiveDate = todayStr → constructSessionManager todayStr (some p) = p) := by
  constructor <;> intro h <;> simp [constructSessionManager, h]

/-- Witness for C8: yesterday's state with a paused session, one
reviewed id and a cluster history, rebuilt on 2024-01-02. -/
theorem C8_witness :
    (PersistedSessionData.lastActiveDate
        ⟨some ⟨"s", "c", "L", ["a"], ["a"], [], 0, 0, .paused⟩, "2024-01-01", ["a"], ["b"],
          [("c", "2023-12-31")]⟩ ≠ "2024-01-02") ∧
    constructSessionManager "2024-01-02"
        (some ⟨some ⟨"s", "c", "L", ["a"], ["a"], [], 0, 0, .paused⟩, "2024-01-01", ["a"], ["b"],
          [("c", "2023-12-31")]⟩) =
      ⟨some ⟨"s", "c", "L", ["a"], ["a"], [], 0, 0, .paused⟩, "2024-01-02", [], [],
        [("c", "2023-12-31")]⟩ :=
  ⟨by decide,
   (C8_construct_rollover "2024-01-02"
      ⟨some ⟨"s", "c", "L", ["a"], ["a"], [], 0, 0, .paused⟩, "2024-01-01", ["a"], ["b"],
        [("c", "2023-12-31")]⟩).1 (by decide)⟩

/-! ## Claim C9: markReviewed is idempotent on the daily counters -/

/-- C9: calling markReviewed twice with the same note id and new-card
flag leaves reviewedTodayIds and newCardsIntroducedIds exactly as after
the first call; the second call never double-counts. -/
theorem C9_markReviewed_idempotent (t1 t2 : String) (n1 n2 : Int) (x : String) (b : Bool)
    (s : PersistedSessionData) :
    (markReviewed t2 n2 x b (markReviewed t1 n1 x b s)).reviewedTodayIds =
      (markReviewed t1 n1 x b s).reviewedTodayIds ∧
    (markReviewed t2 n2 x b (markReviewed t1 n1 x b s)).newCardsIntroducedIds =
      (markReviewed t1 n1 x b s).newCardsIntroducedIds := by
  have h1 := markReviewed_counters t1 n1 x b s
  have h2 := markReviewed_counters t2 n2 x b (markReviewed t1 n1 x b s)
  have hx : x ∈ (markReviewed t1 n1 x b s).reviewedTodayIds := by
    rw [h1.1]
    by_cases hm : x ∈ s.reviewedTodayIds <;> simp [hm]
  refine ⟨by rw [h2.1, if_pos hx], ?_⟩
  rw [h2.2]
  cases b with
  | false => simp
  | true =>
    have hx2 : x ∈ (markReviewed t1 n1 x true s).newCardsIntroducedIds := by
      rw [h1.2]
      by_cases hm : x ∈ s.newCardsIntroducedIds <;> simp [hm]
    simp [hx2]

/-! ## Claim C10: selectNewCardsToIntroduce is a pure query -/

/-- C10: selectNewCardsToIntroduce returns the session state unchanged
in every field; a new card is recorded in newCardsIntroducedIds only by
markReviewed with isNewCard true (markReviewed with isNewCard false
leaves newCardsIntroducedIds untouched). -/
theorem C10_selectNewCards_pure (cfg : ReviewSessionConfig) (s : PersistedSessionData)
    (newCards : List ReviewCard) (clusters : List NoteCluster) :
    (selectNewCardsToIntroduce cfg s newCards clusters).2 = s ∧
    (∀ t n x, (markReviewed t n x false s).newCardsIntroducedIds =
      s.newCardsIntroducedIds) ∧
    (∀ t n x, (markReviewed t n x true s).newCardsIntroducedIds =
      if x ∈ s.newCardsIntroducedIds then s.newCardsIntroducedIds
      else s.newCardsIntroducedIds ++ [x]) := by
  refine ⟨?_, ?_, ?_⟩
  · by_cases hr : cfg.newCardsPerDay - (s.newCardsIntroducedIds.length : Int) ≤ 0
    · simp [selectNewCardsToIntroduce, hr]
    · cases hcs : s.currentSession with
      | none => simp [selectNewCardsToIntroduce, hr, hcs]
      | some sess =>
        cases hf : clusters.find? (fun c => c.id == sess.clusterId) <;>
          simp [selectNewCardsToIntroduce, hr, hcs, hf]
  · intro t n x
    rw [(markReviewed_counters t n x false s).2]
    simp
  · intro t n x
    rw [(markReviewed_counters t n x true s).2]
    by_cases hm : x ∈ s.newCardsIntroducedIds <;> simp [hm]

/-! ## Claim C1: the daily budget invariant -/

/-- C1 counterexample: markReviewed enforces no budget bound.  With
dailyLimit 1, constructing a fresh manager and recording two distinct
reviews leaves reviewedTodayIds with 2 elements, exceeding the limit. -/
theorem C1_counterexample :
    ¬ (((markReviewed "2024-01-02" 0 "b" false
          (markReviewed "2024-01-02" 0 "a" false
            (constructSessionManager "2024-01-02" none))).reviewedTodayIds.length : Int) ≤
        (ReviewSessionConfig.mk 1 10 (7/10) 3).dailyLimit) := by decide

/-- C1 (amended): construction, selectTodayReviewNotes,
selectNewCardsToIntroduce, startSessionForCluster and
pauseCurrentSession preserve the budget invariant — the selection and
session-control operations leave both daily counter lists unchanged,
and construction yields either the unchanged same-day state or empty
counters — but markReviewed enforces no bound: it appends at most one
id per call, so the counters stay within the limits only while callers
stop invoking it at the limit. -/
theorem C1_budget_preservation (cfg : ReviewSessionConfig) (todayEnd : Int)
    (todayStr : String) (now : Int) (s : PersistedSessionData)
    (allCards newCards : List ReviewCard) (clusters : List NoteCluster)
    (cluster : NoteCluster) (dueNoteIds : List String) (x : String) (b : Bool)
    (p : Option PersistedSessionData) :
    ((selectTodayReviewNotes cfg todayEnd todayStr now s allCards
        clusters).2.reviewedTodayIds = s.reviewedTodayIds ∧
     (selectTodayReviewNotes cfg todayEnd todayStr now s allCards
        clusters).2.newCardsIntroducedIds = s.newCardsIntroducedIds) ∧
    (selectNewCardsToIntroduce cfg s newCards clusters).2 = s ∧
    ((startSessionForCluster now cluster dueNoteIds s).reviewedTodayIds =
        s.reviewedTodayIds ∧
     (startSessionForCluster now cluster dueNoteIds s).newCardsIntroducedIds =
        s.newCardsIntroducedIds) ∧
    ((pauseCurrentSession s).reviewedTodayIds = s.reviewedTodayIds ∧
     (pauseCurrentSession s).newCardsIntroducedIds = s.newCardsIntroducedIds) ∧
    ((constructSessionManager todayStr p).reviewedTodayIds =
        (match p with
         | some q => if q.lastActiveDate = todayStr then q.reviewedTodayIds else []
         | none => []) ∧
     (constructSessionManager todayStr p).newCardsIntroducedIds =
        (match p with
         | some q => if q.lastActiveDate = todayStr then q.newCardsIntroducedIds else []
         | none => [])) ∧
    ((markReviewed todayStr now x b s).reviewedTodayIds.length ≤
        s.reviewedTodayIds.length + 1 ∧
     (markReviewed todayStr now x b s).newCardsIntroducedIds.length ≤
        s.newCardsIntroducedIds.length + 1) := by
  refine ⟨selectToday_counters cfg todayEnd todayStr now s allCards clusters,
    selectNewCards_state cfg s newCards clusters, ⟨rfl, rfl⟩,
    ⟨(pauseCurrentSession_state s).1, (pauseCurrentSession_state s).2.1⟩, ?_, ?_⟩
  · cases p with
    | none => exact ⟨rfl, rfl⟩
    | some q =>
      by_cases h : q.lastActiveDate = todayStr <;> simp [constructSessionManager, h]
  · have h := markReviewed_counters todayStr now x b s
    constructor
    · rw [h.1]
      by_cases hm : x ∈ s.reviewedTodayIds <;> simp [hm]
    · rw [h.2]
      by_cases hm : b = true ∧ x ∉ s.newCardsIntroducedIds <;> simp [hm]

/-! ## Claim C3: focus-session status transitions -/

/-- The status transitions of the amended claim: the three the spec
lists, plus paused→completed (markReviewed completing a paused session),
plus no change. -/
def allowedTransition (a b : FocusSessionStatus) : Prop :=
  a = b ∨
  (a = .active ∧ b = .completed) ∨ (a = .active ∧ b = .paused) ∨
  (a = .paused ∧ b = .active) ∨ (a = .paused ∧ b = .completed)

theorem markReviewed_currentSession (t : String) (n : Int) (x : String) (b : Bool)
    (s : PersistedSessionData) (sess : FocusSession) (h : s.currentSession = some sess) :
    (markReviewed t n x b s).currentSession =
      if (markSessionStep x n sess).remainingNoteIds = [] then none
      else some (markSessionStep x n sess) := by
  by_cases h1 : x ∈ s.reviewedTodayIds <;>
    by_cases h2 : b = true ∧ x ∉ s.newCardsIntroducedIds <;>
      simp [markReviewed, h, h1, h2, completeCurrentSession] <;>
      split <;> simp [completeCurrentSession]

theorem selectToday_clusterLastReviewed_not_active (cfg : ReviewSessionConfig)
    (todayEnd : Int) (todayStr : String) (now : Int) (s : PersistedSessionData)
    (allCards : List ReviewCard) (clusters : List NoteCluster)
    (h : ¬ s.currentSession.map FocusSession.status = some .active) :
    (selectTodayReviewNotes cfg todayEnd todayStr now s allCards
      clusters).2.clusterLastReviewed = s.clusterLastReviewed := by
  unfold selectTodayReviewNotes
  by_cases hr : cfg.dailyLimit - (s.reviewedTodayIds.length : Int) ≤ 0
  · simp [hr]
  · simp only [hr, if_false, if_neg h]
    exact ((afterSessionSelect_state now s (dueCardsFor todayEnd s allCards) clusters
      (cfg.dailyLimit - (s.reviewedTodayIds.length : Int))).1).2.2

theorem selectToday_currentSession (cfg : ReviewSessionConfig) (todayEnd : Int)
    (todayStr : String) (now : Int) (s : PersistedSessionData)
    (allCards : List ReviewCard) (clusters : List NoteCluster) (sess : FocusSession)
    (h : s.currentSession = some sess) :
    ∀ sess', (selectTodayReviewNotes cfg todayEnd todayStr now s allCards
        clusters).2.currentSession = some sess' →
      sess' = sess ∨ sess'.status = .active := by
  intro sess' h'
  unfold selectTodayReviewNotes at h'
  by_cases hr : cfg.dailyLimit - (s.reviewedTodayIds.length : Int) ≤ 0
  · simp only [hr, if_true, if_pos] at h'
    rw [h] at h'
    exact Or.inl (Option.some_injective _ h').symm
  · simp only [hr, if_false, if_neg] at h'
    by_cases ha : s.currentSession.map FocusSession.status = some .active
    · rw [if_pos ha] at h'
      by_cases hn : getSessionNotes s (dueCardsFor todayEnd s allCards) ≠ []
      · rw [if_pos hn] at h'
        rw [h] at h'
        exact Or.inl (Option.some_injective _ h').symm
      · rw [if_neg hn] at h'
        rcases (afterSessionSelect_state now (completeCurrentSession todayStr s)
            (dueCardsFor todayEnd s allCards) clusters
            (cfg.dailyLimit - (s.reviewedTodayIds.length : Int))).2 with heq | ⟨cl, ids, heq⟩
        · rw [h'] at heq
          simp [completeCurrentSession, h] at heq
        · rw [h'] at heq
          have : sess' = mkFocusSession now cl ids := Option.some_injective _ heq
          exact Or.inr (by rw [this]; rfl)
    · rw [if_neg ha] at h'
      rcases (afterSessionSelect_state now s (dueCardsFor todayEnd s allCards) clusters
          (cfg.dailyLimit - (s.reviewedTodayIds.length : Int))).2 with heq | ⟨cl, ids, heq⟩
      · rw [h'] at heq
        rw [h] at heq
        exact Or.inl (Option.some_injective _ heq.symm).symm
      · rw [h'] at heq
        have : sess' = mkFocusSession now cl ids := Option.some_injective _ heq
        exact Or.inr (by rw [this]; rfl)

/-- C3 (amended): status transitions of the current session object.
Construction carries the session over untouched; pauseCurrentSession
sets exactly status := paused (so active→paused or paused→paused);
markReviewed either keeps the status or, when removing the note empties
remainingNoteIds, completes and discards the session — also from the
paused status (the amendment: paused→completed is possible);
selectTodayReviewNotes completes a session (recording its cluster in
clusterLastReviewed) only when it is active, and any session it leaves
installed is the unchanged old object or a fresh active one;
startSessionForCluster installs a fresh active session. -/
theorem C3_session_status (cfg : ReviewSessionConfig) (todayEnd : Int) (todayStr : String)
    (now : Int) (s : PersistedSessionData) (allCards : List ReviewCard)
    (clusters : List NoteCluster) (cluster : NoteCluster) (dueNoteIds : List String)
    (x : String) (b : Bool) (sess : FocusSession)
    (h : s.currentSession = some sess) (hc : sess.status ≠ .completed) :
    (constructSessionManager todayStr (some s)).currentSession = s.currentSession ∧
    ((pauseCurrentSession s).currentSession = some { sess with status := .paused } ∧
      allowedTransition sess.status .paused) ∧
    (((markSessionStep x now sess).remainingNoteIds ≠ [] →
        (markReviewed todayStr now x b s).currentSession =
          some (markSessionStep x now sess) ∧
        (markSessionStep x now sess).status = sess.status) ∧
     ((markSessionStep x now sess).remainingNoteIds = [] →
        (markReviewed todayStr now x b s).currentSession = none ∧
        allowedTransition sess.status .completed)) ∧
    ((¬ sess.status = .active →
        (selectTodayReviewNotes cfg todayEnd todayStr now s allCards
          clusters).2.clusterLastReviewed = s.clusterLastReviewed) ∧
     (∀ sess', (selectTodayReviewNotes cfg todayEnd todayStr now s allCards
          clusters).2.currentSession = some sess' →
        sess' = sess ∨ sess'.status = .active)) ∧
    ((startSessionForCluster now cluster dueNoteIds s).currentSession =
        some (mkFocusSession now cluster dueNoteIds) ∧
      (mkFocusSession now cluster dueNoteIds).status = .active) := by
  refine ⟨?_, ⟨?_, ?_⟩, ⟨?_, ?_⟩, ⟨?_, ?_⟩, rfl, rfl⟩
  · by_cases hd : s.lastActiveDate = todayStr <;> simp [constructSessionManager, hd]
  · simp [pauseCurrentSession, h]
  · cases hst : sess.status with
    | active => simp [allowedTransition]
    | paused => simp [allowedTransition]
    | completed => exact absurd hst hc
  · intro hne
    rw [markReviewed_currentSession todayStr now x b s sess h, if_neg hne]
    exact ⟨rfl, rfl⟩
  · intro hemp
    rw [markReviewed_currentSession todayStr now x b s sess h, if_pos hemp]
    refine ⟨rfl, ?_⟩
    cases hst : sess.status with
    | active => simp [allowedTransition]
    | paused => simp [allowedTransition]
    | completed => exact absurd hst hc
  · intro hna
    apply selectToday_clusterLastReviewed_not_active
    rw [h]
    simp [hna]
  · exact selectToday_currentSession cfg todayEnd todayStr now s allCards clusters sess h

/-- C3 counterexample to the claim as stated: a reachable run — fresh
manager, startSessionForCluster, pauseCurrentSession — holds a paused
session with one remaining note; markReviewed on that note completes
the paused session (currentSession cleared and its cluster recorded in
clusterLastReviewed for today), the paused→completed transition the
claim forbids. -/
theorem C3_counterexample :
    (pauseCurrentSession (startSessionForCluster 5 ⟨"c", "L", ["a"], 1, 1⟩ ["a"]
        (constructSessionManager "2024-01-02" none))).currentSession.map
      FocusSession.status = some .paused ∧
    (pauseCurrentSession (startSessionForCluster 5 ⟨"c", "L", ["a"], 1, 1⟩ ["a"]
        (constructSessionManager "2024-01-02" none))).currentSession.map
      FocusSession.remainingNoteIds = some ["a"] ∧
    (markReviewed "2024-01-02" 6 "a" false
        (pauseCurrentSession (startSessionForCluster 5 ⟨"c", "L", ["a"], 1, 1⟩ ["a"]
          (constructSessionManager "2024-01-02" none)))).currentSession = none ∧
    recLookup (markReviewed "2024-01-02" 6 "a" false
        (pauseCurrentSession (startSessionForCluster 5 ⟨"c", "L", ["a"], 1, 1⟩ ["a"]
          (constructSessionManager "2024-01-02" none)))).clusterLastReviewed "c" =
      some "2024-01-02" := by decide

/-- Witness for C3_session_status at a state holding a paused session. -/
theorem C3_witness :
    (PersistedSessionData.currentSession
        ⟨some ⟨"s", "c", "L", ["a"], ["a", "b"], [], 0, 0, .paused⟩,
          "2024-01-02", [], [], []⟩ =
      some ⟨"s", "c", "L", ["a"], ["a", "b"], [], 0, 0, .paused⟩) ∧
    (FocusSession.status ⟨"s", "c", "L", ["a"], ["a", "b"], [], 0, 0, .paused⟩ ≠
      .completed) ∧
    ((pauseCurrentSession
        ⟨some ⟨"s", "c", "L", ["a"], ["a", "b"], [], 0, 0, .paused⟩,
          "2024-01-02", [], [], []⟩).currentSession =
      some { (⟨"s", "c", "L", ["a"], ["a", "b"], [], 0, 0, .paused⟩ : FocusSession) with
        status := .paused } ∧
     allowedTransition
       (FocusSession.status ⟨"s", "c", "L", ["a"], ["a", "b"], [], 0, 0, .paused⟩)
       .paused) :=
  ⟨rfl, by decide,
   (C3_session_status ⟨20, 10, 7/10, 3⟩ 0 "2024-01-02" 0
      ⟨some ⟨"s", "c", "L", ["a"], ["a", "b"], [], 0, 0, .paused⟩, "2024-01-02", [], [], []⟩
      [] [] ⟨"d", "M", [], 0, 0⟩ [] "z" false
      ⟨"s", "c", "L", ["a"], ["a", "b"], [], 0, 0, .paused⟩ rfl (by decide)).2.1⟩

/-! ## Claim C4: the no-cluster fallback of selectTodayReviewNotes -/

theorem startNewSession_no_eligible (now : Int) (s : PersistedSessionData)
    (dueCards : List ReviewCard) (clusters : List NoteCluster)
    (hB : ∀ c ∈ clusters,
      clusterDueCount (dedupFirst (dueCards.map fun x => x.noteId)) c = 0) :
    startNewSession now s dueCards clusters = (none, s) := by
  by_cases hlen : clusters.length = 0
  · simp [startNewSession, hlen]
  · have hf : (List.filter (fun e => decide (0 < e.2.1))
        (clusters.map fun c =>
          (c, clusterDueCount (dedupFirst (dueCards.map fun x => x.noteId)) c,
            lastReviewedOf s c))) = [] := by
      rw [List.filter_eq_nil_iff]
      intro e he
      simp only [List.mem_map] at he
      obtain ⟨c, hc, rfl⟩ := he
      simp [hB c hc]
    simp [startNewSession, hlen, hf]

/-- C4 (amended): when no active focus session supplies notes (no
session, a non-active session, or an active one with no due note) and
no cluster holds a due note, selectTodayReviewNotes returns the manager
sortByPriority ordering of the due, not-yet-reviewed cards — sorted by
nextReview instant, then easeFactor, then repetition — truncated to the
remaining daily slots; it is not the Scheduler optimizeReviewOrder. -/
theorem C4_fallback (cfg : ReviewSessionConfig) (todayEnd : Int) (todayStr : String)
    (now : Int) (s : PersistedSessionData) (allCards : List ReviewCard)
    (clusters : List NoteCluster)
    (hA : s.currentSession.map FocusSession.status = some .active →
      getSessionNotes s (dueCardsFor todayEnd s allCards) = [])
    (hB : ∀ c ∈ clusters, clusterDueCount
        (dedupFirst ((dueCardsFor todayEnd s allCards).map fun x => x.noteId)) c = 0) :
    (selectTodayReviewNotes cfg todayEnd todayStr now s allCards clusters).1 =
      (sortByPriority (dueCardsFor todayEnd s allCards)).take
        (cfg.dailyLimit - (s.reviewedTodayIds.length : Int)).toNat := by
  unfold selectTodayReviewNotes
  by_cases hr : cfg.dailyLimit - (s.reviewedTodayIds.length : Int) ≤ 0
  · rw [if_pos hr]
    have h0 : (cfg.dailyLimit - (s.reviewedTodayIds.length : Int)).toNat = 0 :=
      Int.toNat_of_nonpos hr
    simp [h0]
  · rw [if_neg hr]
    by_cases ha : s.currentSession.map FocusSession.status = some .active
    · rw [if_pos ha]
      have hn := hA ha
      rw [if_neg (by simp [hn])]
      unfold afterSessionSelect
      rw [startNewSession_no_eligible now (completeCurrentSession todayStr s)
        (dueCardsFor todayEnd s allCards) clusters hB]
    · rw [if_neg ha]
      unfold afterSessionSelect
      rw [startNewSession_no_eligible now s (dueCardsFor todayEnd s allCards) clusters hB]

/-- Witness for C4_fallback: fresh manager, one due card, no clusters. -/
theorem C4_witness :
    ((constructSessionManager "2024-01-02" none).currentSession.map FocusSession.status =
        some .active →
      getSessionNotes (constructSessionManager "2024-01-02" none)
        (dueCardsFor 1000 (constructSessionManager "2024-01-02" none)
          [⟨"A", ⟨0, 0, 2, 0⟩, RetentionLevel.novice⟩]) = []) ∧
    (∀ c ∈ ([] : List NoteCluster), clusterDueCount
        (dedupFirst ((dueCardsFor 1000 (constructSessionManager "2024-01-02" none)
          [⟨"A", ⟨0, 0, 2, 0⟩, RetentionLevel.novice⟩]).map fun x => x.noteId)) c = 0) ∧
    (selectTodayReviewNotes ⟨20, 10, 7/10, 3⟩ 1000 "2024-01-02" 500
        (constructSessionManager "2024-01-02" none)
        [⟨"A", ⟨0, 0, 2, 0⟩, RetentionLevel.novice⟩] []).1 =
      (sortByPriority (dueCardsFor 1000 (constructSessionManager "2024-01-02" none)
          [⟨"A", ⟨0, 0, 2, 0⟩, RetentionLevel.novice⟩])).take
        ((20 : Int) -
          (((constructSessionManager "2024-01-02" none).reviewedTodayIds.length : Int))).toNat :=
  ⟨by decide, by decide,
   C4_fallback ⟨20, 10, 7/10, 3⟩ 1000 "2024-01-02" 500
     (constructSessionManager "2024-01-02" none)
     [⟨"A", ⟨0, 0, 2, 0⟩, RetentionLevel.novice⟩] [] (by decide) (by decide)⟩

/-- C4 counterexample to the claim as stated: two due cards, no
clusters, no session.  The fallback returns them in sortByPriority
order (earlier nextReview instant first: A before B), while the
Scheduler optimizeReviewOrder on the same due list puts B first (both
carry the instant overdue flag and B has the lower retention level), so
the returned list is not optimizeReviewOrder truncated. -/
theorem C4_counterexample :
    (selectTodayReviewNotes ⟨20, 10, 7/10, 3⟩ 10000 "2024-01-02" 2000
        (constructSessionManager "2024-01-02" none)
        [⟨"A", ⟨0, 0, 2, 0⟩, RetentionLevel.mastered⟩,
         ⟨"B", ⟨0, 0, 1, 1000⟩, RetentionLevel.novice⟩] []).1 =
      [⟨"A", ⟨0, 0, 2, 0⟩, RetentionLevel.mastered⟩,
       ⟨"B", ⟨0, 0, 1, 1000⟩, RetentionLevel.novice⟩] ∧
    (optimizeReviewOrder 2000
        (dueCardsFor 10000 (constructSessionManager "2024-01-02" none)
          [⟨"A", ⟨0, 0, 2, 0⟩, RetentionLevel.mastered⟩,
           ⟨"B", ⟨0, 0, 1, 1000⟩, RetentionLevel.novice⟩])).take 20 =
      [⟨"B", ⟨0, 0, 1, 1000⟩, RetentionLevel.novice⟩,
       ⟨"A", ⟨0, 0, 2, 0⟩, RetentionLevel.mastered⟩] := by
  constructor
  · simp [selectTodayReviewNotes, dueCardsFor, constructSessionManager, afterSessionSelect,
      startNewSession, getSessionNotes, sortByPriority, prioLe, lexStep, leBy,
      List.mergeSort]
  · simp [optimizeReviewOrder, dueCardsFor, constructSessionManager, List.mergeSort,
      optLe, lexStep, overdueKey, leBy, RETENTION_LEVEL_ORDER]

/-! ## CosineSimilarityClusteringService (the clustering adapter file)

Vector components are rationals; similarity values, whose computation
divides by Math.sqrt of the norms, are real numbers, so these
definitions are noncomputable (branch conditions on reals use the
classical order instances). -/

structure NoteWithVector : Type where
  noteId : String
  vector : List ℚ
deriving DecidableEq, Repr, Inhabited

/-- NoteGroup; id (crypto.randomUUID), name and createdAt (new Date())
are nondeterministic presentation fields read by no claim and are
omitted. -/
structure NoteGroup : Type where
  noteIds : List String
  centroid : List ℚ
  cohesion : ℝ

/-- GroupingResult; the metadata block (algorithm name, counts,
processedAt) is omitted. -/
structure GroupingResult : Type where
  groups : List NoteGroup
  ungroupedNotes : List String

def dotQ (a b : List ℚ) : ℚ := (List.zipWith (fun x y => x * y) a b).sum

def normSq (a : List ℚ) : ℚ := (a.map fun x => x * x).sum

/-- The value cosineSimilarity computes once the dimension check has
passed: 0 when either norm is 0, else dot/(‖a‖·‖b‖). -/
noncomputable def cosSimVal (a b : List ℚ) : ℝ :=
  if normSq a = 0 ∨ normSq b = 0 then 0
  else (dotQ a b : ℝ) / (Real.sqrt (normSq a) * Real.sqrt (normSq b))

/-- CosineSimilarityClusteringService.cosineSimilarity: throws on
dimension mismatch, otherwise returns cosSimVal. -/
noncomputable def cosineSimilarity (a b : List ℚ) : Except String ℝ :=
  if a.length ≠ b.length then .error "Vectors must have the same dimension"
  else .ok (cosSimVal a b)

/-- buildSimilarityMatrix: n×n, diagonal 1, entry (i,j) the cosine
similarity of vectors i and j.  The source fills (i,j) and (j,i) from
one cosineSimilarity call for i < j; here both entries are written by
the same formula, equal by commutativity of the dot product.  Any
dimension mismatch makes the source throw out of the whole
computation. -/
noncomputable def buildSimilarityMatrix (notes : List NoteWithVector) :
    Except String (List (List ℝ)) :=
  if ∀ x ∈ notes, ∀ y ∈ notes, x.vector.length = y.vector.length then
    .ok ((List.range notes.length).map fun i =>
      (List.range notes.length).map fun j =>
        if i = j then 1
        else cosSimVal (notes.getD i default).vector (notes.getD j default).vector)
  else .error "Vectors must have the same dimension"

/-- The mutable clustering state of hierarchicalClustering: clusters is
indexed by original note index (JS Set contents in insertion order),
active the surviving cluster indices in JS Set iteration order. -/
structure ClusterState : Type where
  clusters : List (List ℕ)
  active : List ℕ
deriving DecidableEq, Repr

/-- The (i, j) pairs, i before j, in the order of the double loop over
activeArray. -/
def listPairs {α : Type} : List α → List (α × α)
  | [] => []
  | x :: xs => (xs.map fun y => (x, y)) ++ listPairs xs

/-- maxLinkSimilarity: the largest matrix entry between the two
clusters, scanned from −1 exactly as the source loop does. -/
noncomputable def maxLinkSimilarity (ca cb : List ℕ) (matrix : List (List ℝ)) : ℝ :=
  ca.foldl (fun acc i =>
    cb.foldl (fun acc2 j =>
      if (matrix.getD i []).getD j 0 > acc2 then (matrix.getD i []).getD j 0 else acc2) acc)
    (-1)

/-- The body of the best-pair scan: skip a pair whose merged size would
exceed maxGroupSize, otherwise keep it when its single-link similarity
strictly improves on the best so far.  The source's mergeI = −1
sentinel is rendered as none. -/
noncomputable def bestPairStep (cl : List (List ℕ)) (matrix : List (List ℝ))
    (maxGroupSize : ℕ) (best : ℝ × Option (ℕ × ℕ)) (p : ℕ × ℕ) : ℝ × Option (ℕ × ℕ) :=
  if (cl.getD p.1 []).length + (cl.getD p.2 []).length > maxGroupSize then best
  else
    let sim := maxLinkSimilarity (cl.getD p.1 []) (cl.getD p.2 []) matrix
    if sim > best.1 then (sim, some p) else best

/-- The best-pair scan over all active pairs in loop order. -/
noncomputable def bestPair (st : ClusterState) (matrix : List (List ℝ))
    (maxGroupSize : ℕ) : ℝ × Option (ℕ × ℕ) :=
  (listPairs st.active).foldl (bestPairStep st.clusters matrix maxGroupSize) (-1, none)

/-- One merge: cluster j's members are appended to cluster i (JS
Set.add over a disjoint set keeps insertion order), j leaves the active
set. -/
def mergeClusters (st : ClusterState) (i j : ℕ) : ClusterState :=
  { clusters := st.clusters.set i ((st.clusters.getD i []) ++ (st.clusters.getD j []))
    active := st.active.filter (· ≠ j) }

/-- The while-loop of hierarchicalClustering.  Each pass either stops
(one active cluster left, no eligible pair, or best similarity below
threshold) or performs one merge, which shrinks the active set by one:
fuel = n bounds the iteration count exactly as the source loop is
bounded. -/
noncomputable def mergeLoop (matrix : List (List ℝ)) (threshold : ℝ) (maxGroupSize : ℕ) :
    ℕ → ClusterState → ClusterState
  | 0, st => st
  | fuel + 1, st =>
    if st.active.length ≤ 1 then st
    else
      let bp := bestPair st matrix maxGroupSize
      match bp.2 with
      | none => st
      | some p =>
        if bp.1 < threshold then st
        else mergeLoop matrix threshold maxGroupSize fuel (mergeClusters st p.1 p.2)

/-- The initial state: one singleton cluster per note, all active. -/
def initState (n : ℕ) : ClusterState :=
  { clusters := (List.range n).map fun i => [i], active := List.range n }

/-- The state after the merge loop. -/
noncomputable def finalClusterState (notes : List NoteWithVector)
    (matrix : List (List ℝ)) (threshold : ℝ) (maxGroupSize : ℕ) : ClusterState :=
  mergeLoop matrix threshold maxGroupSize notes.length (initState notes.length)

/-- calculateCentroid: componentwise mean over the first vector's
dimension. -/
def calculateCentroid (vectors : List (List ℚ)) : List ℚ :=
  match vectors with
  | [] => []
  | v0 :: _ =>
    (List.range v0.length).map fun i =>
      (vectors.map fun v => v.getD i 0).sum / (vectors.length : ℚ)

/-- calculateGroupCohesion from note-group.ts: mean of the pairwise
similarities, 0 when there are none. -/
noncomputable def calculateGroupCohesion (sims : List ℝ) : ℝ :=
  if sims.length = 0 then 0 else sims.sum / (sims.length : ℝ)

/-- The cohesion of one cluster: mean of matrix entries over its (i, j)
pairs in loop order. -/
noncomputable def cohesionOf (c : List ℕ) (matrix : List (List ℝ)) : ℝ :=
  calculateGroupCohesion ((listPairs c).map fun p => (matrix.getD p.1 []).getD p.2 0)

/-- hierarchicalClustering: run the merge loop, emit one group per
surviving active cluster of size ≥ 2. -/
noncomputable def hierarchicalClustering (notes : List NoteWithVector)
    (matrix : List (List ℝ)) (threshold : ℝ) (maxGroupSize : ℕ) : List NoteGroup :=
  let final := finalClusterState notes matrix threshold maxGroupSize
  final.active.filterMap fun k =>
    let c := final.clusters.getD k []
    if c.length < 2 then none
    else some
      { noteIds := c.map fun i => (notes.getD i default).noteId
        centroid := calculateCentroid (c.map fun i => (notes.getD i default).vector)
        cohesion := cohesionOf c matrix }

/-- CosineSimilarityClusteringService.cluster. -/
noncomputable def cluster (notes : List NoteWithVector) (threshold : ℝ)
    (maxGroupSize : ℕ) : Except String GroupingResult :=
  if notes.length < 2 then
    .ok { groups := [], ungroupedNotes := notes.map fun n => n.noteId }
  else
    match buildSimilarityMatrix notes with
    | .error e => .error e
    | .ok matrix =>
      let groups := hierarchicalClustering notes matrix threshold maxGroupSize
      .ok { groups := groups
            ungroupedNotes :=
              (notes.filter fun nv => ¬ groups.any fun g => nv.noteId ∈ g.noteIds).map
                fun nv => nv.noteId }

/-! ## Claim C6: cosineSimilarity error behaviour -/

/-- C6: cosineSimilarity reports the invalid-input error exactly when
the two vectors differ in length; on equal lengths it always returns a
value, and that value is 0 whenever either vector has zero norm. -/
theorem C6_cosineSimilarity (a b : List ℚ) :
    (cosineSimilarity a b = .error "Vectors must have the same dimension" ↔
      a.length ≠ b.length) ∧
    (a.length = b.length → cosineSimilarity a b = .ok (cosSimVal a b)) ∧
    (a.length = b.length → (normSq a = 0 ∨ normSq b = 0) →
      cosineSimilarity a b = .ok 0) := by
  by_cases h : a.length = b.length
  · refine ⟨⟨fun he => ?_, fun hne => absurd h hne⟩, fun _ => ?_, fun _ h0 => ?_⟩
    · simp [cosineSimilarity, h] at he
    · simp [cosineSimilarity, h]
    · simp [cosineSimilarity, h, cosSimVal, h0]
  · exact ⟨⟨fun _ => h, fun _ => by simp [cosineSimilarity, h]⟩,
      fun he => absurd he h, fun he => absurd he h⟩

/-- Witness for C6 at the zero vector. -/
theorem C6_witness :
    ([(0 : ℚ)].length = [(0 : ℚ)].length) ∧
    (normSq [(0 : ℚ)] = 0 ∨ normSq [(0 : ℚ)] = 0) ∧
    cosineSimilarity [(0 : ℚ)] [(0 : ℚ)] = .ok 0 :=
  ⟨rfl, Or.inl (by simp [normSq]),
   (C6_cosineSimilarity [(0 : ℚ)] [(0 : ℚ)]).2.2 rfl (Or.inl (by simp [normSq]))⟩

/-! ## Claim C7: invariants of the merge loop -/

theorem listPairs_mem {α : Type} : ∀ (l : List α) (p : α × α),
    p ∈ listPairs l → p.1 ∈ l ∧ p.2 ∈ l := by
  intro l
  induction l with
  | nil => intro p hp; simp [listPairs] at hp
  | cons x xs ih =>
    intro p hp
    simp only [listPairs, List.mem_append, List.mem_map] at hp
    rcases hp with ⟨y, hy, rfl⟩ | hp
    · exact ⟨List.mem_cons_self x xs, List.mem_cons_of_mem _ hy⟩
    · exact ⟨List.mem_cons_of_mem _ (ih p hp).1, List.mem_cons_of_mem _ (ih p hp).2⟩

theorem listPairs_ne {α : Type} : ∀ (l : List α), l.Nodup → ∀ p ∈ listPairs l,
    p.1 ≠ p.2 := by
  intro l
  induction l with
  | nil => intro _ p hp; simp [listPairs] at hp
  | cons x xs ih =>
    intro hnd p hp
    simp only [listPairs, List.mem_append, List.mem_map] at hp
    rcases hp with ⟨y, hy, rfl⟩ | hp
    · intro he
      have hxy : x = y := he
      subst hxy
      exact (List.nodup_cons.mp hnd).1 hy
    · exact ih (List.nodup_cons.mp hnd).2 p hp

theorem bestPair_fold_inv (cl : List (List ℕ)) (matrix : List (List ℝ)) (M : ℕ) :
    ∀ (l : List (ℕ × ℕ)) (acc : ℝ × Option (ℕ × ℕ)) (q : ℕ × ℕ),
      (l.foldl (bestPairStep cl matrix M) acc).2 = some q →
      acc.2 = some q ∨
        (q ∈ l ∧ (cl.getD q.1 []).length + (cl.getD q.2 []).length ≤ M) := by
  intro l
  induction l with
  | nil => intro acc q h; exact Or.inl h
  | cons p tl ih =>
    intro acc q h
    rw [List.foldl_cons] at h
    rcases ih (bestPairStep cl matrix M acc p) q h with h1 | h2
    · by_cases hsz : (cl.getD p.1 []).length + (cl.getD p.2 []).length > M
      · rw [bestPairStep, if_pos hsz] at h1
        exact Or.inl h1
      · by_cases hsim :
            maxLinkSimilarity (cl.getD p.1 []) (cl.getD p.2 []) matrix > acc.1
        · simp only [bestPairStep, if_neg hsz, if_pos hsim] at h1
          have hq : p = q := Option.some_injective _ h1
          subst hq
          exact Or.inr ⟨List.mem_cons_self p tl, by omega⟩
        · simp only [bestPairStep, if_neg hsz, if_neg hsim] at h1
          exact Or.inl h1
    · exact Or.inr ⟨List.mem_cons_of_mem _ h2.1, h2.2⟩

theorem bestPair_mem (st : ClusterState) (matrix : List (List ℝ)) (M : ℕ) (q : ℕ × ℕ)
    (h : (bestPair st matrix M).2 = some q) :
    q ∈ listPairs st.active ∧
      (st.clusters.getD q.1 []).length + (st.clusters.getD q.2 []).length ≤ M := by
  rcases bestPair_fold_inv st.clusters matrix M (listPairs st.active) (-1, none) q h with
    h1 | h2
  · simp at h1
  · exact h2

/-- The merge-loop invariant: clusters has one slot per note, active
indices are distinct and in range, members are note indices, any
cluster that has grown past a single member respects maxGroupSize, and
distinct active clusters are disjoint. -/
def StInv (n M : ℕ) (st : ClusterState) : Prop :=
  st.clusters.length = n ∧
  st.active.Nodup ∧
  (∀ k ∈ st.active, k < n) ∧
  (∀ k ∈ st.active, ∀ x ∈ st.clusters.getD k [], x < n) ∧
  (∀ k ∈ st.active, 2 ≤ (st.clusters.getD k []).length →
    (st.clusters.getD k []).length ≤ M) ∧
  (∀ i ∈ st.active, ∀ j ∈ st.active, i ≠ j →
    ∀ x ∈ st.clusters.getD i [], x ∉ st.clusters.getD j []) 

theorem initState_getD (n k : ℕ) (h : k < n) : (initState n).clusters.getD k [] = [k] := by
  simp [initState, List.getD, List.getElem?_map, List.getElem?_range h]

theorem initState_inv (n M : ℕ) : StInv n M (initState n) := by
  have hact : ∀ k, k ∈ (initState n).active ↔ k < n := by
    intro k
    simp [initState]
  refine ⟨by simp [initState], List.nodup_range n, ?_, ?_, ?_, ?_⟩
  · intro k hk
    exact (hact k).mp hk
  · intro k hk x hx
    rw [initState_getD n k ((hact k).mp hk)] at hx
    simp only [List.mem_singleton] at hx
    exact hx ▸ (hact k).mp hk
  · intro k hk h2
    rw [initState_getD n k ((hact k).mp hk)] at h2
    simp at h2
  · intro i hi j hj hij x hxi
    rw [initState_getD n i ((hact i).mp hi)] at hxi
    rw [initState_getD n j ((hact j).mp hj)]
    simp only [List.mem_singleton] at hxi
    simp [hxi, hij]

theorem mergeClusters_inv (n M : ℕ) (st : ClusterState) (hinv : StInv n M st)
    (p : ℕ × ℕ) (hp : p ∈ listPairs st.active)
    (hsz : (st.clusters.getD p.1 []).length + (st.clusters.getD p.2 []).length ≤ M) :
    StInv n M (mergeClusters st p.1 p.2) := by
  obtain ⟨hlen, hnd, hbnd, helem, hsize, hdisj⟩ := hinv
  obtain ⟨hp1, hp2⟩ := listPairs_mem st.active p hp
  have hne : p.1 ≠ p.2 := listPairs_ne st.active hnd p hp
  have hp1len : p.1 < st.clusters.length := by
    rw [hlen]
    exact hbnd _ hp1
  have hset_self : (mergeClusters st p.1 p.2).clusters.getD p.1 [] =
      st.clusters.getD p.1 [] ++ st.clusters.getD p.2 [] := by
    simp [mergeClusters, List.getD, List.getElem?_set_self, hp1len]
  have hset_ne : ∀ k, k ≠ p.1 →
      (mergeClusters st p.1 p.2).clusters.getD k [] = st.clusters.getD k [] := by
    intro k hk
    have hk2 : p.1 ≠ k := fun h => hk h.symm
    simp [mergeClusters, List.getD, List.getElem?_set_ne hk2]
  have hact : ∀ k, k ∈ (mergeClusters st p.1 p.2).active ↔ (k ∈ st.active ∧ k ≠ p.2) := by
    intro k
    simp [mergeClusters, List.mem_filter]
  refine ⟨by simp [mergeClusters, hlen], hnd.filter _, ?_, ?_, ?_, ?_⟩
  · intro k hk
    exact hbnd k ((hact k).mp hk).1
  · intro k hk x hx
    obtain ⟨hka, _⟩ := (hact k).mp hk
    by_cases hkp : k = p.1
    · subst hkp
      rw [hset_self] at hx
      rcases List.mem_append.mp hx with h | h
      · exact helem _ hp1 x h
      · exact helem _ hp2 x h
    · rw [hset_ne k hkp] at hx
      exact helem _ hka x hx
  · intro k hk h2
    obtain ⟨hka, _⟩ := (hact k).mp hk
    by_cases hkp : k = p.1
    · subst hkp
      rw [hset_self]
      rw [List.length_append]
      exact hsz
    · rw [hset_ne k hkp] at h2 ⊢
      exact hsize _ hka h2
  · intro i hi j hj hij x hxi
    obtain ⟨hia, hine⟩ := (hact i).mp hi
    obtain ⟨hja, hjne⟩ := (hact j).mp hj
    by_cases hip : i = p.1
    · subst hip
      rw [hset_self] at hxi
      have hjp : j ≠ p.1 := fun h => hij h.symm
      rw [hset_ne j hjp]
      rcases List.mem_append.mp hxi with h | h
      · exact hdisj p.1 hp1 j hja hij x h
      · exact hdisj p.2 hp2 j hja (fun he => hjne he.symm) x h
    · rw [hset_ne i hip] at hxi
      by_cases hjp : j = p.1
      · subst hjp
        rw [hset_self]
        intro hmem
        rcases List.mem_append.mp hmem with h | h
        · exact (hdisj i hia p.1 hp1 hij x hxi) h
        · exact (hdisj i hia p.2 hp2 hine x hxi) h
      · rw [hset_ne j hjp]
        exact hdisj i hia j hja hij x hxi

theorem mergeLoop_inv (n M : ℕ) (matrix : List (List ℝ)) (threshold : ℝ) :
    ∀ (fuel : ℕ) (st : ClusterState), StInv n M st →
      StInv n M (mergeLoop matrix threshold M fuel st) := by
  intro fuel
  induction fuel with
  | zero => intro st h; exact h
  | succ f ih =>
    intro st h
    rw [mergeLoop]
    by_cases hl : st.active.length ≤ 1
    · simp only [if_pos hl]
      exact h
    · simp only [if_neg hl]
      cases hbp : (bestPair st matrix M).2 with
      | none =>
        simp only [hbp]
        exact h
      | some p =>
        simp only [hbp]
        by_cases ht : (bestPair st matrix M).1 < threshold
        · simp only [if_pos ht]
          exact h
        · simp only [if_neg ht]
          obtain ⟨hmem, hsz⟩ := bestPair_mem st matrix M p hbp
          exact ih _ (mergeClusters_inv n M st h p hmem hsz)

theorem getD_eq_getElem {α : Type} [Inhabited α] (l : List α) (i : ℕ) (h : i < l.length)
    (d : α) : l.getD i d = l[i] := by
  simp [List.getD, List.getElem?_eq_getElem h]

theorem getD_mem {α : Type} [Inhabited α] (l : List α) (i : ℕ) (h : i < l.length) (d : α) :
    l.getD i d ∈ l := by
  rw [getD_eq_getElem l i h]
  exact List.getElem_mem h

theorem finalClusterState_inv (notes : List NoteWithVector) (matrix : List (List ℝ))
    (threshold : ℝ) (M : ℕ) :
    StInv notes.length M (finalClusterState notes matrix threshold M) :=
  mergeLoop_inv notes.length M matrix threshold notes.length (initState notes.length)
    (initState_inv notes.length M)

theorem hierarchicalClustering_mem (notes : List NoteWithVector) (matrix : List (List ℝ))
    (threshold : ℝ) (M : ℕ) (g : NoteGroup)
    (hg : g ∈ hierarchicalClustering notes matrix threshold M) :
    ∃ k ∈ (finalClusterState notes matrix threshold M).active,
      2 ≤ ((finalClusterState notes matrix threshold M).clusters.getD k []).length ∧
      g.noteIds = ((finalClusterState notes matrix threshold M).clusters.getD k []).map
        fun i => (notes.getD i default).noteId := by
  simp only [hierarchicalClustering] at hg
  rw [List.mem_filterMap] at hg
  obtain ⟨k, hk, hfk⟩ := hg
  by_cases hlt :
      ((finalClusterState notes matrix threshold M).clusters.getD k []).length < 2
  · rw [if_pos hlt] at hfk
    exact absurd hfk (by simp)
  · rw [if_neg hlt] at hfk
    refine ⟨k, hk, by omega, ?_⟩
    have hge := Option.some_injective _ hfk
    rw [← hge]

/-- C7 (amended): for every input with maxGroupSize ≥ 1, every group
cluster returns has between 2 and maxGroupSize members; and provided
the input note ids are pairwise distinct, every note left in a size-1
cluster at the end of the merge loop appears in ungroupedNotes.  (With
duplicated ids the second part fails, see the counterexample.) -/
theorem C7_cluster_bounds (notes : List NoteWithVector) (threshold : ℝ) (M : ℕ)
    (res : GroupingResult) (_hM : 1 ≤ M)
    (hres : cluster notes threshold M = .ok res) :
    (∀ g ∈ res.groups, 2 ≤ g.noteIds.length ∧ g.noteIds.length ≤ M) ∧
    ((notes.map fun nv => nv.noteId).Nodup →
      ∀ matrix, buildSimilarityMatrix notes = .ok matrix →
        ∀ k ∈ (finalClusterState notes matrix threshold M).active,
          ((finalClusterState notes matrix threshold M).clusters.getD k []).length = 1 →
          ∀ i ∈ (finalClusterState notes matrix threshold M).clusters.getD k [],
            (notes.getD i default).noteId ∈ res.ungroupedNotes) := by
  by_cases hn2 : notes.length < 2
  · have hres2 : res = ⟨[], notes.map fun nv => nv.noteId⟩ := by
      rw [cluster, if_pos hn2] at hres
      exact (Except.ok.inj hres).symm
    constructor
    · rw [hres2]
      intro g hg
      simp at hg
    · intro _ matrix _ k hk _ i hi
      have hinv := finalClusterState_inv notes matrix threshold M
      have hin : i < notes.length := hinv.2.2.2.1 k hk i hi
      rw [hres2]
      simp only [List.mem_map]
      exact ⟨notes.getD i default, getD_mem notes i hin default, rfl⟩
  · cases hbm0 : buildSimilarityMatrix notes with
    | error e =>
      rw [cluster, if_neg hn2, hbm0] at hres
      exact absurd hres (by simp)
    | ok m0 =>
      have hres2 : res = ⟨hierarchicalClustering notes m0 threshold M,
          (notes.filter fun nv =>
            ¬ (hierarchicalClustering notes m0 threshold M).any
              fun g => nv.noteId ∈ g.noteIds).map fun nv => nv.noteId⟩ := by
        rw [cluster, if_neg hn2, hbm0] at hres
        exact (Except.ok.inj hres).symm
      constructor
      · intro g hg
        rw [hres2] at hg
        obtain ⟨k, hk, h2, hids⟩ :=
          hierarchicalClustering_mem notes m0 threshold M g hg
        have hinv := finalClusterState_inv notes m0 threshold M
        rw [hids, List.length_map]
        exact ⟨h2, hinv.2.2.2.2.1 k hk h2⟩
      · intro hnd matrix hbm k hk hk1 i hi
        have hmm : m0 = matrix := Except.ok.inj hbm
        subst hmm
        have hinv := finalClusterState_inv notes m0 threshold M
        have hin : i < notes.length := hinv.2.2.2.1 k hk i hi
        have hnotin : ∀ g ∈ hierarchicalClustering notes m0 threshold M,
            (notes.getD i default).noteId ∉ g.noteIds := by
          intro g hg hmem
          obtain ⟨kg, hkg, h2, hids⟩ :=
            hierarchicalClustering_mem notes m0 threshold M g hg
          rw [hids, List.mem_map] at hmem
          obtain ⟨j, hj, hji⟩ := hmem
          have hjn : j < notes.length := hinv.2.2.2.1 kg hkg j hj
          have hji2 : notes[j].noteId = notes[i].noteId := by
            rw [getD_eq_getElem notes j hjn default,
              getD_eq_getElem notes i hin default] at hji
            exact hji
          have h1 : (notes.map fun nv => nv.noteId).get ⟨j, by simpa using hjn⟩ =
              (notes.map fun nv => nv.noteId).get ⟨i, by simpa using hin⟩ := by
            simp only [List.get_eq_getElem, List.getElem_map]
            exact hji2
          have h1f := (List.Nodup.get_inj_iff hnd).mp h1
          have hije : j = i := by simpa using congrArg Fin.val h1f
          subst hije
          have hkne : k ≠ kg := by
            intro he
            rw [← he] at h2
            omega
          exact (hinv.2.2.2.2.2 k hk kg hkg hkne j hi) hj
        rw [hres2]
        simp only [List.mem_map]
        refine ⟨notes.getD i default, ?_, rfl⟩
        rw [List.mem_filter]
        refine ⟨getD_mem notes i hin default, ?_⟩
        rw [decide_eq_true_eq]
        intro hany
        rw [List.any_eq_true] at hany
        obtain ⟨g, hg, hgm⟩ := hany
        rw [decide_eq_true_eq] at hgm
        exact hnotin g hg hgm

/-- Witness for C7_cluster_bounds on a single-note input (the fewer
than 2 branch). -/
theorem C7_witness :
    (1 : ℕ) ≤ 2 ∧
    cluster [⟨"a", [1]⟩] (0 : ℝ) 2 = .ok ⟨[], ["a"]⟩ ∧
    (∀ g ∈ (⟨[], ["a"]⟩ : GroupingResult).groups,
      2 ≤ g.noteIds.length ∧ g.noteIds.length ≤ 2) :=
  have hcl : cluster [⟨"a", [1]⟩] (0 : ℝ) 2 = .ok ⟨[], ["a"]⟩ := by
    norm_num [cluster]
  ⟨by decide, hcl,
   (C7_cluster_bounds [⟨"a", [1]⟩] 0 2 ⟨[], ["a"]⟩ (by decide) hcl).1⟩

/-! The C7 counterexample input: three notes, two of them sharing the
id x.  Notes 0 and 1 (vectors [1,0]) merge into one group; note 2
(vector [0,1]) stays a size-1 cluster, but its id x is grouped, so
ungroupedNotes comes back empty and the size-1 item appears nowhere. -/

def ceNotes : List NoteWithVector := [⟨"x", [1, 0]⟩, ⟨"y", [1, 0]⟩, ⟨"x", [0, 1]⟩]

noncomputable def ceM : List (List ℝ) := [[1, 1, 0], [1, 1, 0], [0, 0, 1]]

theorem ce_sim_same : cosSimVal [(1 : ℚ), 0] [(1 : ℚ), 0] = 1 := by
  have h1 : normSq [(1 : ℚ), 0] = 1 := by norm_num [normSq]
  have h2 : dotQ [(1 : ℚ), 0] [(1 : ℚ), 0] = 1 := by norm_num [dotQ]
  rw [cosSimVal, if_neg (by rw [h1]; norm_num)]
  rw [h1, h2]
  norm_num [Real.sqrt_one]

theorem ce_sim_cross : cosSimVal [(1 : ℚ), 0] [(0 : ℚ), 1] = 0 := by
  have h1 : normSq [(1 : ℚ), 0] = 1 := by norm_num [normSq]
  have h1b : normSq [(0 : ℚ), 1] = 1 := by norm_num [normSq]
  have h2 : dotQ [(1 : ℚ), 0] [(0 : ℚ), 1] = 0 := by norm_num [dotQ]
  rw [cosSimVal, if_neg (by rw [h1, h1b]; norm_num)]
  rw [h1, h1b, h2]
  norm_num

theorem ce_sim_cross2 : cosSimVal [(0 : ℚ), 1] [(1 : ℚ), 0] = 0 := by
  have h1 : normSq [(1 : ℚ), 0] = 1 := by norm_num [normSq]
  have h1b : normSq [(0 : ℚ), 1] = 1 := by norm_num [normSq]
  have h2 : dotQ [(0 : ℚ), 1] [(1 : ℚ), 0] = 0 := by norm_num [dotQ]
  rw [cosSimVal, if_neg (by rw [h1, h1b]; norm_num)]
  rw [h1, h1b, h2]
  norm_num

theorem ce_matrix : buildSimilarityMatrix ceNotes = .ok ceM := by
  rw [buildSimilarityMatrix, if_pos (by decide)]
  rw [show ceNotes.length = 3 from rfl, show List.range 3 = [0, 1, 2] from rfl]
  simp [ceNotes, ceM, ce_sim_same, ce_sim_cross, ce_sim_cross2]

theorem ce_ml01 : maxLinkSimilarity [0] [1] ceM = 1 := by
  norm_num [maxLinkSimilarity, ceM]

theorem ce_ml02 : maxLinkSimilarity [0] [2] ceM = 0 := by
  norm_num [maxLinkSimilarity, ceM]

theorem ce_ml12 : maxLinkSimilarity [1] [2] ceM = 0 := by
  norm_num [maxLinkSimilarity, ceM]

theorem ce_best1 :
    bestPair ⟨[[0], [1], [2]], [0, 1, 2]⟩ ceM 2 = (1, some (0, 1)) := by
  norm_num [bestPair, bestPairStep, listPairs, ce_ml01, ce_ml02, ce_ml12]

theorem ce_best2 :
    bestPair ⟨[[0, 1], [1], [2]], [0, 2]⟩ ceM 2 = (-1, none) := by
  norm_num [bestPair, bestPairStep, listPairs]

theorem ce_step1 (f : ℕ) :
    mergeLoop ceM (1/2) 2 (f + 1) ⟨[[0], [1], [2]], [0, 1, 2]⟩ =
      mergeLoop ceM (1/2) 2 f ⟨[[0, 1], [1], [2]], [0, 2]⟩ := by
  rw [mergeLoop]
  rw [if_neg (by decide)]
  simp only [ce_best1]
  rw [if_neg (by norm_num)]
  rfl

theorem ce_step2 (f : ℕ) :
    mergeLoop ceM (1/2) 2 (f + 1) ⟨[[0, 1], [1], [2]], [0, 2]⟩ =
      ⟨[[0, 1], [1], [2]], [0, 2]⟩ := by
  rw [mergeLoop]
  rw [if_neg (by decide)]
  simp only [ce_best2]

theorem ce_final :
    finalClusterState ceNotes ceM (1/2) 2 = ⟨[[0, 1], [1], [2]], [0, 2]⟩ := by
  rw [finalClusterState, show ceNotes.length = 3 from rfl,
    show initState 3 = (⟨[[0], [1], [2]], [0, 1, 2]⟩ : ClusterState) from rfl]
  have h1 := ce_step1 2
  have h2 := ce_step2 1
  norm_num at h1 h2
  rw [h1, h2]

theorem ce_groups :
    hierarchicalClustering ceNotes ceM (1/2) 2 = [⟨["x", "y"], [1, 0], 1⟩] := by
  simp only [hierarchicalClustering, ce_final]
  have hcen : calculateCentroid [[(1 : ℚ), 0], [(1 : ℚ), 0]] = [1, 0] := by
    norm_num [calculateCentroid, show List.range 2 = [0, 1] from rfl]
  have hcoh : cohesionOf [0, 1] ceM = 1 := by
    norm_num [cohesionOf, calculateGroupCohesion, listPairs, ceM]
  simp [ceNotes, hcen, hcoh]

theorem ce_cluster :
    cluster ceNotes (1/2) 2 = .ok ⟨[⟨["x", "y"], [1, 0], 1⟩], []⟩ := by
  rw [cluster, if_neg (by decide), ce_matrix]
  simp only [ce_groups]
  simp [ceNotes]

/-- C7 counterexample to the claim as stated: with a duplicated note id,
the third input item (id x, vector [0,1]) ends the merge loop in the
size-1 active cluster [2], yet the result's ungroupedNotes is empty —
its id is already claimed by the group of the other two items, so the
size-1 item appears neither in a group (as an item) nor in
ungroupedNotes. -/
theorem C7_counterexample :
    (2 : ℕ) ∈ (finalClusterState ceNotes ceM (1/2) 2).active ∧
    (finalClusterState ceNotes ceM (1/2) 2).clusters.getD 2 [] = [2] ∧
    buildSimilarityMatrix ceNotes = .ok ceM ∧
    cluster ceNotes (1/2) 2 = .ok ⟨[⟨["x", "y"], [1, 0], 1⟩], []⟩ := by
  refine ⟨?_, ?_, ce_matrix, ce_cluster⟩
  · rw [ce_final]
    decide
  · rw [ce_final]
    rfl
